import Mathlib

/-!
Shallow Lean embedding of five physics teaching scripts
(beats_simulation.py, newton_rings.py, spring_block.py, standing_wave.py,
wien_displacement.py) and proofs of the specification claims about them.

Modelling conventions:
* Python/NumPy floating-point numbers are modelled as exact reals (`ℝ`).
* A NumPy operation that produces a non-finite value (NaN from the square
  root of a negative number, infinity from division by zero) is modelled
  as `Option ℝ` with `none` standing for the non-finite result.
* A Python call that raises is modelled as `Except String`.
* scipy's `fsolve` is an external iterative root finder; it is modelled as
  an abstract parameter `fsolve : (ℝ → ℝ) → ℝ → ℝ` mapping the target
  function and the initial guess to the returned value.
-/

namespace SpringBlock

/-- `time_step = 2 * np.pi / step_num` from `solve_ode_euler`. -/
noncomputable def time_step (step_num : ℕ) : ℝ := 2 * Real.pi / step_num

/-- One explicit-Euler update of `(position, velocity)`:
`position[i+1] = position[i] + velocity[i] * time_step`,
`velocity[i+1] = velocity[i] - position[i] * time_step`. -/
noncomputable def eulerState (step_num : ℕ) : ℕ → ℝ × ℝ
  | 0 => (0, 1)
  | i + 1 =>
    let p := eulerState step_num i
    (p.1 + p.2 * time_step step_num, p.2 - p.1 * time_step step_num)

/-- The `position` array of `solve_ode_euler`, as a function of the index. -/
noncomputable def position (step_num i : ℕ) : ℝ := (eulerState step_num i).1

/-- The `velocity` array of `solve_ode_euler`, as a function of the index. -/
noncomputable def velocity (step_num i : ℕ) : ℝ := (eulerState step_num i).2

/-- `time_points = np.arange(step_num + 1) * time_step`. -/
noncomputable def time_points (step_num i : ℕ) : ℝ := i * time_step step_num

/-- `solve_ode_euler` returns the triple
`(time_points, position, velocity)`, each an array of `step_num + 1` reals. -/
noncomputable def solve_ode_euler (step_num : ℕ) : List ℝ × List ℝ × List ℝ :=
  ((List.range (step_num + 1)).map (time_points step_num),
   (List.range (step_num + 1)).map (position step_num),
   (List.range (step_num + 1)).map (velocity step_num))

/-- Total mechanical energy `0.5 * (position**2 + velocity**2)` (as in
`plot_comparison`'s energy panel). -/
noncomputable def energy (step_num i : ℕ) : ℝ :=
  0.5 * ((position step_num i) ^ 2 + (velocity step_num i) ^ 2)

end SpringBlock

namespace BeatsSimulation

/-- `np.linspace(t_start, t_end, num)`: raises `ValueError` for a negative
sample count, returns the empty array for `num = 0`, the singleton
`[t_start]` for `num = 1`, and otherwise `num` uniformly spaced samples
from `t_start` to `t_end` inclusive. -/
noncomputable def linspace (t_start t_end : ℝ) (num : ℤ) : Except String (List ℝ) :=
  if num < 0 then
    Except.error "ValueError: number of samples must be non-negative"
  else if num = 1 then Except.ok [t_start]
  else
    Except.ok ((List.range num.toNat).map
      (fun i => t_start + i * (t_end - t_start) / (num - 1)))

/-- `simulate_beat_frequency` (plotting suppressed, as with
`show_plot=False`): builds the time grid, the two sampled sinusoids
`wave1`, `wave2`, their pointwise sum `superposed_wave`, and the scalar
`beat_frequency = np.abs(f1 - f2)`; returns
`(t, superposed_wave, beat_frequency)`. -/
noncomputable def simulate_beat_frequency (f1 f2 A1 A2 t_start t_end : ℝ)
    (num_points : ℤ) : Except String (List ℝ × List ℝ × ℝ) :=
  match linspace t_start t_end num_points with
  | Except.error e => Except.error e
  | Except.ok t =>
    let wave1 := t.map fun ti => A1 * Real.sin (2 * Real.pi * f1 * ti)
    let wave2 := t.map fun ti => A2 * Real.sin (2 * Real.pi * f2 * ti)
    let superposed_wave := List.zipWith (fun a b => a + b) wave1 wave2
    let beat_frequency := |f1 - f2|
    Except.ok (t, superposed_wave, beat_frequency)

end BeatsSimulation

namespace NewtonRings

/-- Helium-neon laser wavelength in metres, from `setup_parameters`. -/
noncomputable def lambda_light : ℝ := 632.8e-9

/-- Lens radius of curvature in metres, from `setup_parameters`. -/
noncomputable def R_lens : ℝ := 0.1

/-- `setup_parameters()` returns `(lambda_light, R_lens)`. -/
noncomputable def setup_parameters : ℝ × ℝ := (lambda_light, R_lens)

/-- The `i`-th entry of `np.linspace(-0.001, 0.001, 1000)` used for both
grid axes in `generate_grid` (step `0.002 / 999`). -/
noncomputable def grid_coord (i : ℕ) : ℝ := -0.001 + i * (0.002 / 999)

/-- The radial distance `r = np.sqrt(X**2 + Y**2)` at meshgrid cell
`(i, j)` of `generate_grid`. -/
noncomputable def grid_r (i j : ℕ) : ℝ :=
  Real.sqrt ((grid_coord i) ^ 2 + (grid_coord j) ^ 2)

/-- `np.sqrt` on floats: `none` models the NaN produced on a negative
argument (NumPy emits a warning and yields NaN, it does not raise). -/
noncomputable def npSqrt (x : ℝ) : Option ℝ :=
  if x < 0 then none else some (Real.sqrt x)

/-- `calculate_intensity(r, lambda_light, R_lens)`: air-gap thickness
`d = R_lens - np.sqrt(R_lens**2 - r**2)` followed by
`intensity = 4 * (np.sin(2 * np.pi * d / lambda_light))**2`; `none` models
a NaN intensity arising from a negative radicand. -/
noncomputable def calculate_intensity (r lam R : ℝ) : Option ℝ :=
  (npSqrt (R ^ 2 - r ^ 2)).map fun s =>
    4 * (Real.sin (2 * Real.pi * (R - s) / lam)) ^ 2

end NewtonRings

namespace StandingWave

/-- `sineWaveZeroPhi(x, t, A, omega, k) = A * np.sin(k * x - omega * t)`. -/
noncomputable def sineWaveZeroPhi (x t A omega k : ℝ) : ℝ :=
  A * Real.sin (k * x - omega * t)

/-- Default amplitude of `animate`. -/
noncomputable def default_A : ℝ := 1.0

/-- Default angular frequency of `animate`. -/
noncomputable def default_omega : ℝ := 2 * Real.pi

/-- Default wavenumber of `animate`. -/
noncomputable def default_k : ℝ := Real.pi / 2

end StandingWave

namespace WienDisplacement

/-- `wien_equation(x) = 5 * np.exp(-x) + x - 5`. -/
noncomputable def wien_equation (x : ℝ) : ℝ := 5 * Real.exp (-x) + x - 5

/-- `scipy.constants.h`, the Planck constant in J·s. -/
noncomputable def h_planck : ℝ := 6.62607015e-34

/-- `scipy.constants.c`, the speed of light in m/s. -/
noncomputable def c_light : ℝ := 299792458

/-- `scipy.constants.k`, the Boltzmann constant in J/K. -/
noncomputable def k_B : ℝ := 1.380649e-23

/-- Float division: `none` models the non-finite value (inf/NaN) that
Python/NumPy float division produces on a zero denominator. -/
noncomputable def floatDiv (a b : ℝ) : Option ℝ :=
  if b = 0 then none else some (a / b)

/-- `solve_wien_constant(x0)`: run the root finder on `wien_equation`
from `x0` obtaining `x_solution`, then derive
`b = (h * c) / (k_B * x_solution)`; returns `(x_solution, b)`.
`fsolve` abstracts scipy's iterative root finder. -/
noncomputable def solve_wien_constant (fsolve : (ℝ → ℝ) → ℝ → ℝ) (x0 : ℝ) :
    ℝ × Option ℝ :=
  let x_solution := fsolve wien_equation x0
  (x_solution, floatDiv (h_planck * c_light) (k_B * x_solution))

/-- `WIEN_CONSTANT = solve_wien_constant()[1]`, evaluated at module load
with the default initial guess `x0 = 5.0`. -/
noncomputable def WIEN_CONSTANT (fsolve : (ℝ → ℝ) → ℝ → ℝ) : Option ℝ :=
  (solve_wien_constant fsolve 5.0).2

/-- The module-level mutable state of `wien_displacement.py`: the single
global `WIEN_CONSTANT`. -/
structure ModuleState where
  wien_constant : Option ℝ

/-- Module load: `WIEN_CONSTANT = solve_wien_constant()[1]` with the
default guess `5.0`. -/
noncomputable def moduleInit (fsolve : (ℝ → ℝ) → ℝ → ℝ) : ModuleState :=
  ⟨WIEN_CONSTANT fsolve⟩

/-- `calculate_temperature(wavelength) = WIEN_CONSTANT / wavelength`,
reading the module-level constant from the state. -/
noncomputable def calculate_temperature (st : ModuleState) (wavelength : ℝ) :
    Option ℝ :=
  st.wien_constant.bind fun b => floatDiv b wavelength

/-- A call `solve_wien_constant(x0)` as a state transition: the Python
function body contains no assignment to `WIEN_CONSTANT`, so the module
state passes through unchanged alongside the returned pair. -/
noncomputable def solveCallStep (fsolve : (ℝ → ℝ) → ℝ → ℝ) (st : ModuleState)
    (x0 : ℝ) : (ℝ × Option ℝ) × ModuleState :=
  (solve_wien_constant fsolve x0, st)

/-- Run a sequence of `solve_wien_constant` calls (with arbitrary initial
guesses) against the module state. -/
noncomputable def runSolveCalls (fsolve : (ℝ → ℝ) → ℝ → ℝ) :
    ModuleState → List ℝ → ModuleState
  | st, [] => st
  | st, x0 :: rest => runSolveCalls fsolve (solveCallStep fsolve st x0).2 rest

/-- `wavelength_sun = 502e-9` from the `__main__` block. -/
noncomputable def wavelength_sun : ℝ := 502e-9

/-- A Python positional call of `calculate_temperature`, whose `def` takes
exactly one parameter `wavelength`: any other argument count raises
`TypeError` before the body runs. -/
noncomputable def callCalculateTemperature (st : ModuleState) (args : List ℝ) :
    Except String (Option ℝ) :=
  match args with
  | [w] => Except.ok (calculate_temperature st w)
  | _ => Except.error "TypeError: calculate_temperature takes 1 positional argument"

/-- The `__main__` step
`temperature_sun = calculate_temperature(wavelength_sun, x0)`, which
passes two positional arguments. -/
noncomputable def main_temperature_step (fsolve : (ℝ → ℝ) → ℝ → ℝ) (x0 : ℝ) :
    Except String (Option ℝ) :=
  callCalculateTemperature (moduleInit fsolve) [wavelength_sun, x0]

end WienDisplacement

namespace SpringBlock

lemma energy_succ (step_num i : ℕ) :
    energy step_num (i + 1) =
      energy step_num i * (1 + (time_step step_num) ^ 2) := by
  simp only [energy, position, velocity, eulerState]
  ring

lemma energy_pos (step_num i : ℕ) : 0 < energy step_num i := by
  induction i with
  | zero =>
    simp [energy, position, velocity, eulerState]
    norm_num
  | succ n ih =>
    rw [energy_succ]
    have h1 : (0:ℝ) < 1 + (time_step step_num) ^ 2 := by positivity
    exact mul_pos ih h1

lemma time_step_pos {step_num : ℕ} (h : 1 ≤ step_num) :
    0 < time_step step_num := by
  have hN : (0:ℝ) < step_num := by exact_mod_cast h
  have hpi : (0:ℝ) < Real.pi := Real.pi_pos
  unfold time_step
  positivity

end SpringBlock

namespace BeatsSimulation

lemma zipWith_add_map (f g : ℝ → ℝ) (l : List ℝ) :
    List.zipWith (fun a b => a + b) (l.map f) (l.map g)
      = l.map fun x => f x + g x := by
  induction l with
  | nil => rfl
  | cons a l ih => simp [ih]

end BeatsSimulation

/-- C2: for every step count `N ≥ 10` and every `0 ≤ i < N`, the explicit-Euler
trajectory's total energy `E[i] = 0.5 * (position[i]^2 + velocity[i]^2)`
satisfies `E[i+1] = E[i] * (1 + h^2)` with `h = 2π/N`, and is strictly
increasing: `E[i] < E[i+1]`. -/
theorem C2_euler_energy_strictly_increasing (N i : ℕ) (hN : 10 ≤ N) (_hi : i < N) :
    SpringBlock.energy N (i + 1)
      = SpringBlock.energy N i * (1 + (SpringBlock.time_step N) ^ 2) ∧
    SpringBlock.energy N i < SpringBlock.energy N (i + 1) := by
  refine ⟨SpringBlock.energy_succ N i, ?_⟩
  have h1 : 1 ≤ N := le_trans (by norm_num) hN
  have hh := SpringBlock.time_step_pos h1
  have hE := SpringBlock.energy_pos N i
  rw [SpringBlock.energy_succ]
  nlinarith [mul_pos hE (mul_pos hh hh)]

/-- Witness for C2 at the concrete step count `N = 10`, step `i = 0`. -/
theorem C2_euler_energy_strictly_increasing_witness :
    SpringBlock.energy 10 (0 + 1)
      = SpringBlock.energy 10 0 * (1 + (SpringBlock.time_step 10) ^ 2) ∧
    SpringBlock.energy 10 0 < SpringBlock.energy 10 (0 + 1) :=
  C2_euler_energy_strictly_increasing 10 0 (by norm_num) (by norm_num)

/-- C6: for every `N ≥ 1`, `solve_ode_euler N` returns three arrays of length
`N + 1`; the first entries are the initial condition `t = 0, x = 0, v = 1`;
each subsequent position/velocity pair is produced by the explicit-Euler
update with fixed step `h = 2π/N`; and the time points are `i * h`, uniformly
spaced over `[0, 2π]` with `time_points[N] = 2π`. -/
theorem C6_euler_trajectory_structure (N : ℕ) (hN : 1 ≤ N) :
    ((SpringBlock.solve_ode_euler N).1.length = N + 1 ∧
     (SpringBlock.solve_ode_euler N).2.1.length = N + 1 ∧
     (SpringBlock.solve_ode_euler N).2.2.length = N + 1) ∧
    ((SpringBlock.solve_ode_euler N).1.head? = some 0 ∧
     (SpringBlock.solve_ode_euler N).2.1.head? = some 0 ∧
     (SpringBlock.solve_ode_euler N).2.2.head? = some 1) ∧
    (∀ i, i < N →
      SpringBlock.position N (i + 1)
        = SpringBlock.position N i
            + SpringBlock.velocity N i * SpringBlock.time_step N ∧
      SpringBlock.velocity N (i + 1)
        = SpringBlock.velocity N i
            - SpringBlock.position N i * SpringBlock.time_step N) ∧
    (∀ i, SpringBlock.time_points N i = i * (2 * Real.pi / N)) ∧
    SpringBlock.time_points N N = 2 * Real.pi := by
  have hN0 : (N:ℝ) ≠ 0 := by exact_mod_cast Nat.one_le_iff_ne_zero.mp hN
  refine ⟨⟨?_, ?_, ?_⟩, ⟨?_, ?_, ?_⟩, ?_, ?_, ?_⟩
  · simp [SpringBlock.solve_ode_euler]
  · simp [SpringBlock.solve_ode_euler]
  · simp [SpringBlock.solve_ode_euler]
  · simp [SpringBlock.solve_ode_euler, List.head?_map, List.range_succ_eq_map,
      SpringBlock.time_points]
  · simp [SpringBlock.solve_ode_euler, List.head?_map, List.range_succ_eq_map,
      SpringBlock.position, SpringBlock.eulerState]
  · simp [SpringBlock.solve_ode_euler, List.head?_map, List.range_succ_eq_map,
      SpringBlock.velocity, SpringBlock.eulerState]
  · intro i _
    constructor
    · simp [SpringBlock.position, SpringBlock.velocity, SpringBlock.eulerState]
    · simp [SpringBlock.position, SpringBlock.velocity, SpringBlock.eulerState]
  · intro i
    simp [SpringBlock.time_points, SpringBlock.time_step]
  · simp only [SpringBlock.time_points, SpringBlock.time_step]
    field_simp

/-- Witness for C6 at the concrete step count `N = 1`. -/
theorem C6_euler_trajectory_structure_witness :
    ((SpringBlock.solve_ode_euler 1).1.length = 1 + 1 ∧
     (SpringBlock.solve_ode_euler 1).2.1.length = 1 + 1 ∧
     (SpringBlock.solve_ode_euler 1).2.2.length = 1 + 1) ∧
    ((SpringBlock.solve_ode_euler 1).1.head? = some 0 ∧
     (SpringBlock.solve_ode_euler 1).2.1.head? = some 0 ∧
     (SpringBlock.solve_ode_euler 1).2.2.head? = some 1) ∧
    (∀ i, i < 1 →
      SpringBlock.position 1 (i + 1)
        = SpringBlock.position 1 i
            + SpringBlock.velocity 1 i * SpringBlock.time_step 1 ∧
      SpringBlock.velocity 1 (i + 1)
        = SpringBlock.velocity 1 i
            - SpringBlock.position 1 i * SpringBlock.time_step 1) ∧
    (∀ i, SpringBlock.time_points 1 i = i * (2 * Real.pi / ((1:ℕ):ℝ))) ∧
    SpringBlock.time_points 1 1 = 2 * Real.pi :=
  C6_euler_trajectory_structure 1 (by norm_num)

/-- C7: whenever `simulate_beat_frequency` returns, its scalar beat frequency
equals `|f1 - f2|` and its returned wave is the pointwise sum of the two
sampled sinusoids `A1 * sin(2π f1 t)` and `A2 * sin(2π f2 t)`; in particular
for `f1 = 440, f2 = 444` the beat frequency is exactly `4`, and for
`f1 = f2` it is exactly `0`. -/
theorem C7_beat_frequency_and_superposition (f1 f2 A1 A2 t_start t_end : ℝ)
    (num_points : ℤ) (t wave : List ℝ) (bf : ℝ)
    (h : BeatsSimulation.simulate_beat_frequency f1 f2 A1 A2 t_start t_end num_points
          = Except.ok (t, wave, bf)) :
    bf = |f1 - f2| ∧
    wave = t.map (fun ti => A1 * Real.sin (2 * Real.pi * f1 * ti)
                    + A2 * Real.sin (2 * Real.pi * f2 * ti)) ∧
    (f1 = 440 → f2 = 444 → bf = 4) ∧
    (f1 = f2 → bf = 0) := by
  unfold BeatsSimulation.simulate_beat_frequency at h
  cases hl : BeatsSimulation.linspace t_start t_end num_points with
  | error e => rw [hl] at h; cases h
  | ok tl =>
    rw [hl] at h
    simp only [Except.ok.injEq, Prod.mk.injEq] at h
    obtain ⟨ht, hw, hb⟩ := h
    subst ht
    refine ⟨hb.symm, ?_, ?_, ?_⟩
    · rw [← hw, BeatsSimulation.zipWith_add_map]
    · intro h1 h2
      rw [← hb, h1, h2]
      norm_num
    · intro h12
      rw [← hb, h12]
      simp

/-- Witness for C7 at the concrete call
`simulate_beat_frequency(440, 444, 1, 1, 0, 1, num_points=0)`. -/
theorem C7_beat_frequency_and_superposition_witness :
    (4:ℝ) = |(440:ℝ) - 444| ∧
    ([] : List ℝ) = ([] : List ℝ).map (fun ti =>
        1 * Real.sin (2 * Real.pi * 440 * ti)
          + 1 * Real.sin (2 * Real.pi * 444 * ti)) ∧
    ((440:ℝ) = 440 → (444:ℝ) = 444 → (4:ℝ) = 4) ∧
    ((440:ℝ) = 444 → (4:ℝ) = 0) :=
  C7_beat_frequency_and_superposition 440 444 1 1 0 1 0 [] [] 4 (by
    simp only [BeatsSimulation.simulate_beat_frequency, BeatsSimulation.linspace]
    norm_num)

/-- C3: the claim that `simulate_beat_frequency` fails with an
InvalidArgument-kind error for every `num_points ≤ 0` is violated at
`num_points = 0`: the code silently returns empty sample and wave arrays
together with a computed beat frequency (only negative counts raise, via
`np.linspace`'s `ValueError`). -/
theorem C3_zero_num_points_silently_returns_empty :
    BeatsSimulation.simulate_beat_frequency 440 444 1 1 0 1 0
      = Except.ok (([] : List ℝ), ([] : List ℝ), 4) ∧
    BeatsSimulation.simulate_beat_frequency 440 444 1 1 0 1 (-1)
      = Except.error "ValueError: number of samples must be non-negative" := by
  constructor
  · simp only [BeatsSimulation.simulate_beat_frequency, BeatsSimulation.linspace]
    norm_num
  · simp only [BeatsSimulation.simulate_beat_frequency, BeatsSimulation.linspace]
    norm_num

/-- C8: for every `x, A, omega, k`, the forward and backward waves at `t = 0`
sum to `2 A * sin(k x)`; with the defaults `A = 1, k = π/2` and at `x = 1`
the sum equals exactly `2`. -/
theorem C8_standing_wave_sum_at_time_zero (x A omega k : ℝ) :
    StandingWave.sineWaveZeroPhi x 0 A omega k
      + StandingWave.sineWaveZeroPhi x 0 A (-omega) k
      = 2 * A * Real.sin (k * x) ∧
    StandingWave.sineWaveZeroPhi 1 0 StandingWave.default_A
        StandingWave.default_omega StandingWave.default_k
      + StandingWave.sineWaveZeroPhi 1 0 StandingWave.default_A
        (-StandingWave.default_omega) StandingWave.default_k
      = 2 := by
  constructor
  · simp only [StandingWave.sineWaveZeroPhi, mul_zero, neg_mul, sub_zero,
      neg_zero, sub_neg_eq_add, add_zero]
    ring
  · simp [StandingWave.sineWaveZeroPhi, StandingWave.default_A,
      StandingWave.default_omega, StandingWave.default_k,
      Real.sin_pi_div_two]
    norm_num

/-- C4: the claim that `calculate_intensity` clamps `r` to `[0, R]` or fails
with a DomainError on `r > R` is violated: the code applies no guard, and at
`r = 0.2 > R_lens = 0.1` it evaluates `np.sqrt` on the negative radicand
`R_lens² - r² = -0.03`, yielding a NaN intensity (modelled `none`) rather
than a clamped value or an error. -/
theorem C4_unguarded_sqrt_on_negative_radicand :
    NewtonRings.R_lens ^ 2 - (0.2:ℝ) ^ 2 < 0 ∧
    NewtonRings.calculate_intensity 0.2 NewtonRings.lambda_light
      NewtonRings.R_lens = none := by
  constructor
  · norm_num [NewtonRings.R_lens]
  · unfold NewtonRings.calculate_intensity NewtonRings.npSqrt
    rw [if_pos (by norm_num [NewtonRings.R_lens])]
    rfl

/-- C5: the module-level `WIEN_CONSTANT` is computed exactly once at load
time from the default guess `x0 = 5.0` and is never mutated: after any
sequence of `solve_wien_constant(x0')` calls with arbitrary guesses, the
module state still holds `solve_wien_constant(5.0)[1]`, and
`calculate_temperature(λ)` still returns `WIEN_CONSTANT / λ`. -/
theorem C5_wien_constant_initialized_once_never_mutated
    (fsolve : (ℝ → ℝ) → ℝ → ℝ) (calls : List ℝ) (lam : ℝ) :
    WienDisplacement.runSolveCalls fsolve
        (WienDisplacement.moduleInit fsolve) calls
      = WienDisplacement.moduleInit fsolve ∧
    WienDisplacement.calculate_temperature
        (WienDisplacement.runSolveCalls fsolve
          (WienDisplacement.moduleInit fsolve) calls) lam
      = (WienDisplacement.WIEN_CONSTANT fsolve).bind
          (fun b => WienDisplacement.floatDiv b lam) := by
  have hrun : ∀ st : WienDisplacement.ModuleState,
      WienDisplacement.runSolveCalls fsolve st calls = st := by
    induction calls with
    | nil => intro st; rfl
    | cons x0 rest ih =>
      intro st
      rw [WienDisplacement.runSolveCalls, WienDisplacement.solveCallStep]
      exact ih st
  refine ⟨hrun _, ?_⟩
  rw [hrun _]
  rfl

/-- C10: `wien_equation` has the trivial root `x = 0`, and
`solve_wien_constant` divides by the returned root with no zero guard: when
the root finder started at `x0 = 0` returns that exact root, the derived
constant `b = (h c)/(k_B · 0)` is a division by zero, i.e. non-finite
(modelled `none`), not a Wien constant. -/
theorem C10_trivial_root_gives_division_by_zero
    (fsolve : (ℝ → ℝ) → ℝ → ℝ)
    (hf : fsolve WienDisplacement.wien_equation 0 = 0) :
    WienDisplacement.wien_equation 0 = 0 ∧
    (WienDisplacement.solve_wien_constant fsolve 0).1 = 0 ∧
    (WienDisplacement.solve_wien_constant fsolve 0).2 = none := by
  refine ⟨?_, ?_, ?_⟩
  · simp [WienDisplacement.wien_equation, Real.exp_zero]
  · simp [WienDisplacement.solve_wien_constant, hf]
  · simp [WienDisplacement.solve_wien_constant, hf, WienDisplacement.floatDiv]

/-- Witness for C10 with a concrete root finder that returns its initial
guess when that guess is already an exact root. -/
theorem C10_trivial_root_gives_division_by_zero_witness :
    WienDisplacement.wien_equation 0 = 0 ∧
    (WienDisplacement.solve_wien_constant (fun _ x0 => x0) 0).1 = 0 ∧
    (WienDisplacement.solve_wien_constant (fun _ x0 => x0) 0).2 = none :=
  C10_trivial_root_gives_division_by_zero (fun _ x0 => x0) rfl

/-- C1: the `__main__` step
`temperature_sun = calculate_temperature(wavelength_sun, x0)` passes two
positional arguments to a function whose `def` declares exactly one
parameter, so when reached it raises a TypeError (arity error) instead of
returning a temperature — for every root-finder behaviour and every `x0`. -/
theorem C1_main_temperature_call_arity_error
    (fsolve : (ℝ → ℝ) → ℝ → ℝ) (x0 : ℝ) :
    WienDisplacement.main_temperature_step fsolve x0
      = Except.error
          "TypeError: calculate_temperature takes 1 positional argument" :=
  rfl

namespace NewtonRings

lemma grid_coord_abs_le {i : ℕ} (hi : i < 1000) : |grid_coord i| ≤ 0.001 := by
  have hi' : (i:ℝ) ≤ 999 := by exact_mod_cast Nat.lt_succ_iff.mp hi
  have h0 : (0:ℝ) ≤ (i:ℝ) := Nat.cast_nonneg i
  have hc : (0:ℝ) < 0.002 / 999 := by norm_num
  rw [abs_le]
  constructor
  · unfold grid_coord
    nlinarith [mul_nonneg h0 hc.le]
  · unfold grid_coord
    nlinarith [mul_le_mul_of_nonneg_right hi' hc.le]

lemma grid_r_nonneg (i j : ℕ) : 0 ≤ grid_r i j := Real.sqrt_nonneg _

lemma grid_r_sq_le {i j : ℕ} (hi : i < 1000) (hj : j < 1000) :
    (grid_r i j) ^ 2 ≤ 0.000002 := by
  have h1 := grid_coord_abs_le hi
  have h2 := grid_coord_abs_le hj
  have s1 : (grid_coord i) ^ 2 ≤ (0.001:ℝ) ^ 2 :=
    sq_le_sq' (abs_le.mp h1).1 (abs_le.mp h1).2
  have s2 : (grid_coord j) ^ 2 ≤ (0.001:ℝ) ^ 2 :=
    sq_le_sq' (abs_le.mp h2).1 (abs_le.mp h2).2
  have hnn : (0:ℝ) ≤ (grid_coord i) ^ 2 + (grid_coord j) ^ 2 := by positivity
  rw [grid_r, Real.sq_sqrt hnn]
  nlinarith

end NewtonRings

/-- C9: every radial distance produced by `generate_grid` satisfies
`r ≤ √2 · 10⁻³ < R_lens = 0.1`; hence on the script's own grid the radicand
`R² − r²` is strictly positive, the thickness `d = R − √(R²−r²)` lies in
`[0, R]`, and `calculate_intensity` returns a real (non-NaN) intensity in
`[0, 4]`. -/
theorem C9_grid_radii_inside_lens_aperture (i j : ℕ)
    (hi : i < 1000) (hj : j < 1000) :
    NewtonRings.grid_r i j ≤ Real.sqrt 2 * 0.001 ∧
    NewtonRings.grid_r i j < NewtonRings.R_lens ∧
    0 < NewtonRings.R_lens ^ 2 - (NewtonRings.grid_r i j) ^ 2 ∧
    (0 ≤ NewtonRings.R_lens
        - Real.sqrt (NewtonRings.R_lens ^ 2 - (NewtonRings.grid_r i j) ^ 2) ∧
     NewtonRings.R_lens
        - Real.sqrt (NewtonRings.R_lens ^ 2 - (NewtonRings.grid_r i j) ^ 2)
        ≤ NewtonRings.R_lens) ∧
    ∃ I, NewtonRings.calculate_intensity (NewtonRings.grid_r i j)
          NewtonRings.lambda_light NewtonRings.R_lens = some I
        ∧ 0 ≤ I ∧ I ≤ 4 := by
  have hr2 := NewtonRings.grid_r_sq_le hi hj
  have hrnn := NewtonRings.grid_r_nonneg i j
  have hs2 : Real.sqrt 2 ^ 2 = 2 := Real.sq_sqrt (by norm_num)
  have hsnn : (0:ℝ) ≤ Real.sqrt 2 := Real.sqrt_nonneg 2
  have hRpos : (0:ℝ) < NewtonRings.R_lens := by norm_num [NewtonRings.R_lens]
  have hrad : 0 < NewtonRings.R_lens ^ 2 - (NewtonRings.grid_r i j) ^ 2 := by
    norm_num [NewtonRings.R_lens]
    nlinarith
  have hsqnn : 0 ≤ Real.sqrt
      (NewtonRings.R_lens ^ 2 - (NewtonRings.grid_r i j) ^ 2) :=
    Real.sqrt_nonneg _
  have hsqle : Real.sqrt (NewtonRings.R_lens ^ 2 - (NewtonRings.grid_r i j) ^ 2)
      ≤ NewtonRings.R_lens := by
    have h1 : NewtonRings.R_lens ^ 2 - (NewtonRings.grid_r i j) ^ 2
        ≤ NewtonRings.R_lens ^ 2 := by nlinarith
    calc Real.sqrt (NewtonRings.R_lens ^ 2 - (NewtonRings.grid_r i j) ^ 2)
        ≤ Real.sqrt (NewtonRings.R_lens ^ 2) := Real.sqrt_le_sqrt h1
      _ = NewtonRings.R_lens := by
          rw [Real.sqrt_sq hRpos.le]
  refine ⟨?_, ?_, hrad, ⟨by linarith, by linarith⟩, ?_⟩
  · nlinarith
  · nlinarith [hrad]
  · refine ⟨4 * (Real.sin (2 * Real.pi * (NewtonRings.R_lens
        - Real.sqrt (NewtonRings.R_lens ^ 2 - (NewtonRings.grid_r i j) ^ 2))
        / NewtonRings.lambda_light)) ^ 2, ?_, ?_, ?_⟩
    · unfold NewtonRings.calculate_intensity NewtonRings.npSqrt
      rw [if_neg (not_lt.mpr hrad.le)]
      rfl
    · positivity
    · nlinarith [Real.sin_sq_le_one (2 * Real.pi * (NewtonRings.R_lens
        - Real.sqrt (NewtonRings.R_lens ^ 2 - (NewtonRings.grid_r i j) ^ 2))
        / NewtonRings.lambda_light)]

/-- Witness for C9 at the concrete grid cell `(i, j) = (0, 0)`. -/
theorem C9_grid_radii_inside_lens_aperture_witness :
    NewtonRings.grid_r 0 0 ≤ Real.sqrt 2 * 0.001 ∧
    NewtonRings.grid_r 0 0 < NewtonRings.R_lens ∧
    0 < NewtonRings.R_lens ^ 2 - (NewtonRings.grid_r 0 0) ^ 2 ∧
    (0 ≤ NewtonRings.R_lens
        - Real.sqrt (NewtonRings.R_lens ^ 2 - (NewtonRings.grid_r 0 0) ^ 2) ∧
     NewtonRings.R_lens
        - Real.sqrt (NewtonRings.R_lens ^ 2 - (NewtonRings.grid_r 0 0) ^ 2)
        ≤ NewtonRings.R_lens) ∧
    ∃ I, NewtonRings.calculate_intensity (NewtonRings.grid_r 0 0)
          NewtonRings.lambda_light NewtonRings.R_lens = some I
        ∧ 0 ≤ I ∧ I ≤ 4 :=
  C9_grid_radii_inside_lens_aperture 0 0 (by norm_num) (by norm_num)
